import Mathlib

/-!
Verification of the GEX (gamma-exposure) analysis core against its source
(`src/app/utils.ts`, `src/app/types.ts`, and the normal-distribution kernel).

Shallow embedding conventions:
* JavaScript numbers are modelled by exact rationals (`ℚ`) in the aggregation,
  filtering and decoding layers, and by real numbers (`ℝ`) in the Black-Scholes
  layer (which uses `exp`, `log`, `sqrt`).  A small dedicated model `JSNum`
  with IEEE special values (infinities, NaN) is used where a division by zero
  in the source makes the idealised field semantics unfaithful.
* JavaScript strings are modelled as `List Char` (`JSStr`).
* JavaScript `Map`s are modelled as association lists in insertion order
  (`Map.set` of a fresh key appends at the end, updating an existing key keeps
  its position; `Map.prototype.values()` iterates in insertion order).
* `Date` values are modelled by their civil calendar components; a `Date`
  produced by `new Date(y, m, d)` is modelled assuming a non-positive UTC
  offset (e.g. UTC itself), under which `toISOString` preserves the local
  calendar components.  A full timestamp is a calendar day plus a rational
  time-of-day (`JSDateTime`).
-/

/-! ## JavaScript strings and generic association-list helpers -/

/-- JavaScript strings, modelled as lists of UTF-16-ish characters. -/
abbrev JSStr := List Char

/-- Lexicographic `≤` on strings by character code: the order used by the
default (comparator-free) `Array.prototype.sort()` on strings. -/
def jsStrLe : JSStr → JSStr → Bool
  | [], _ => true
  | _ :: _, [] => false
  | a :: s, b :: t =>
    if a.toNat < b.toNat then true
    else if b.toNat < a.toNat then false
    else jsStrLe s t

/-- `jsStrLe` as a decidable relation.  The pipeline's sorts are modelled
by the stable, structurally recursive `List.insertionSort`; every list the
source sorts has pairwise-distinct keys, on which all comparison sorts
agree with `Array.prototype.sort`. -/
def jsStrLeR (a b : JSStr) : Prop := jsStrLe a b = true

instance : DecidableRel jsStrLeR := fun a b => by
  unfold jsStrLeR; infer_instance

/-- `Map.prototype.has` on an insertion-ordered association list. -/
def containsKey [DecidableEq α] : List (α × β) → α → Bool
  | [], _ => false
  | (k, _) :: r, a => if k = a then true else containsKey r a

/-- `Map.prototype.get` on an insertion-ordered association list. -/
def assocGet [DecidableEq α] : List (α × β) → α → Option β
  | [], _ => none
  | (k, v) :: r, a => if k = a then some v else assocGet r a

/-- `Map.prototype.set` on an existing key: update the value in place,
keeping the key's insertion position. -/
def assocUpdate [DecidableEq α] (f : β → β) : List (α × β) → α → List (α × β)
  | [], _ => []
  | (k, v) :: r, a => if k = a then (k, f v) :: r else (k, v) :: assocUpdate f r a

/-- `new Set(list)` converted back to an array: deduplication keeping the
first occurrence of each element, in insertion order. -/
def jsSetDedup [DecidableEq α] : List α → List α → List α
  | _, [] => []
  | seen, a :: l =>
    if a ∈ seen then jsSetDedup seen l else a :: jsSetDedup (a :: seen) l

/-! ## Numeric string helpers -/

/-- Decimal digit test used by `parseInt` (the source only feeds it ASCII). -/
def isDigitChar (c : Char) : Bool := 48 ≤ c.toNat ∧ c.toNat ≤ 57

/-- The character for a decimal digit. -/
def natDigit (n : ℕ) : Char := Char.ofNat (48 + n)

/-- JavaScript `parseInt(s)` restricted to the shapes the source feeds it:
an optional run of leading decimal digits is parsed; no digits yields `NaN`,
modelled as `none`.  (Sign prefixes, whitespace and radix prefixes never occur
in the option-symbol slices this is applied to.) -/
def jsParseInt (s : JSStr) : Option ℤ :=
  let ds := s.takeWhile isDigitChar
  if ds = [] then none
  else some (ds.foldl (fun acc c => 10 * acc + ((c.toNat : ℤ) - 48)) 0)

/-- `String.prototype.slice(s, e)` with JavaScript index clamping
(negative indices count from the end). -/
def jsSlice (l : JSStr) (s e : ℤ) : JSStr :=
  let len : ℤ := l.length
  let s' := (if s < 0 then max (len + s) 0 else min s len).toNat
  let e' := (if e < 0 then max (len + e) 0 else min e len).toNat
  (l.take e').drop s'

/-- One-argument `String.prototype.slice(s)`. -/
def jsSlice1 (l : JSStr) (s : ℤ) : JSStr :=
  let len : ℤ := l.length
  let s' := (if s < 0 then max (len + s) 0 else min s len).toNat
  l.drop s'

/-! ## Civil calendar model of JavaScript `Date` -/

/-- Gregorian leap year (`Date` uses the proleptic Gregorian calendar). -/
def isLeapYear (y : ℤ) : Bool := (y % 4 = 0 ∧ y % 100 ≠ 0) ∨ y % 400 = 0

/-- Days in a civil month (1-based month). -/
def daysInMonth (y m : ℤ) : ℤ :=
  if m = 2 then (if isLeapYear y then 29 else 28)
  else if m = 4 ∨ m = 6 ∨ m = 9 ∨ m = 11 then 30
  else 31

/-- Days since 1970-01-01 of a civil date (Howard Hinnant's
`days_from_civil`; Lean's `/` on `ℤ` floors for positive divisors, which is
what the algorithm needs). -/
def toOrdinal (y m d : ℤ) : ℤ :=
  let y' := if m ≤ 2 then y - 1 else y
  let era := y' / 400
  let yoe := y' - era * 400
  let doy := (153 * (if m > 2 then m - 3 else m + 9) + 2) / 5 + d - 1
  let doe := yoe * 365 + yoe / 4 - yoe / 100 + doy
  era * 146097 + doe - 719468

/-- `Date.prototype.getDay` (0 = Sunday … 6 = Saturday) from the day
ordinal; 1970-01-01 (ordinal 0) was a Thursday. -/
def ordGetDay (ord : ℤ) : ℤ := (ord + 4) % 7

/-- Month-overflow normalisation of `new Date(y, m0, d)` (0-based month):
excess months roll into years. -/
def normMonths (y m0 : ℤ) : ℤ × ℤ := (y + m0 / 12, m0 % 12)

/-- Day-overflow normalisation of `new Date(y, m0, d)`: out-of-range days
roll through adjacent months.  Fuel-based recursion; the source only ever
passes two-digit day fields, far below the fuel bound. -/
def normDaysFuel : ℕ → ℤ → ℤ → ℤ → ℤ × ℤ × ℤ
  | 0, y, m, d => (y, m, d)
  | fuel + 1, y, m, d =>
    if d < 1 then
      let y' := if m = 1 then y - 1 else y
      let m' := if m = 1 then 12 else m - 1
      normDaysFuel fuel y' m' (d + daysInMonth y' m')
    else if d > daysInMonth y m then
      let y' := if m = 12 then y + 1 else y
      let m' := if m = 12 then 1 else m + 1
      normDaysFuel fuel y' m' (d - daysInMonth y m)
    else (y, m, d)

/-- The civil date denoted by `new Date(y, m0, d)` (0-based month `m0`),
after JavaScript's component normalisation. -/
def jsDateNormalize (y m0 d : ℤ) : ℤ × ℤ × ℤ :=
  let ym := normMonths y m0
  normDaysFuel 1000 ym.1 (ym.2 + 1) d

/-- Fixed-width decimal rendering of the low two digits. -/
def pad2 (n : ℤ) : JSStr := [natDigit ((n / 10) % 10).toNat, natDigit (n % 10).toNat]

/-- Fixed-width decimal rendering of the low four digits (ISO years in the
source lie in 2000–2099, where this agrees with `toISOString`). -/
def pad4 (n : ℤ) : JSStr :=
  [natDigit ((n / 1000) % 10).toNat, natDigit ((n / 100) % 10).toNat,
   natDigit ((n / 10) % 10).toNat, natDigit (n % 10).toNat]

/-- `new Date(y, m0, d).toISOString().split("T")[0]`, assuming a
non-positive UTC offset (so the civil components survive the conversion). -/
def jsDateToISO (y m0 d : ℤ) : JSStr :=
  let c := jsDateNormalize y m0 d
  pad4 c.1 ++ '-' :: pad2 c.2.1 ++ '-' :: pad2 c.2.2

/-- Parse a `"YYYY-MM-DD"` string back into civil components, as
`new Date(s + "T00:00:00")` does for the ISO strings the pipeline produces;
any other shape is an Invalid Date (`none`). -/
def parseISODate (s : JSStr) : Option (ℤ × ℤ × ℤ) :=
  match s with
  | [y1, y2, y3, y4, h1, m1, m2, h2, d1, d2] =>
    if h1 = '-' ∧ h2 = '-' ∧
       (isDigitChar y1 ∧ isDigitChar y2 ∧ isDigitChar y3 ∧ isDigitChar y4) ∧
       (isDigitChar m1 ∧ isDigitChar m2) ∧ (isDigitChar d1 ∧ isDigitChar d2) then
      some (1000 * ((y1.toNat : ℤ) - 48) + 100 * ((y2.toNat : ℤ) - 48) +
              10 * ((y3.toNat : ℤ) - 48) + ((y4.toNat : ℤ) - 48),
            10 * ((m1.toNat : ℤ) - 48) + ((m2.toNat : ℤ) - 48),
            10 * ((d1.toNat : ℤ) - 48) + ((d2.toNat : ℤ) - 48))
    else none
  | _ => none

/-- A valid JavaScript `Date` value: a civil day (as ordinal) plus a
rational time-of-day in `[0, 1)`.  `Date` comparison is lexicographic in
(day, time-of-day) since both order by the underlying epoch offset. -/
structure JSDateTime where
  ord : ℤ
  tod : ℚ
  deriving DecidableEq, Repr

/-- A `Date` that may be an Invalid Date (`none`): every comparison against
an Invalid Date is false. -/
abbrev JSDate := Option JSDateTime

/-- `countBusinessDays(from, to)` (source `utils.ts`): steps a cursor one
day at a time from `from` while `current <= to`, counting weekdays.
`setDate` preserves the time-of-day, so the cursor's time-of-day stays at
`from.tod`; the loop therefore visits exactly the day ordinals
`from.ord … to.ord` when `from.tod ≤ to.tod`, and `from.ord … to.ord - 1`
otherwise.  With an Invalid Date on either side the comparison is false and
the count is 0. -/
def countBusinessDays (fromD toD : JSDate) : ℕ :=
  match fromD, toD with
  | some f, some t =>
    let lastOrd : ℤ := if f.tod ≤ t.tod then t.ord else t.ord - 1
    (((List.range (lastOrd + 1 - f.ord).toNat).map (fun i => f.ord + i)).filter
      (fun n => ordGetDay n ≠ 0 ∧ ordGetDay n ≠ 6)).length
  | _, _ => 0

/-- `isThirdFriday(dateStr)` (source `utils.ts`): the date is a Friday whose
day-of-month lies in `[15, 21]`.  An unparseable string gives an Invalid
Date, whose `NaN` comparisons are all false. -/
def isThirdFriday (s : JSStr) : Bool :=
  match parseISODate s with
  | some (y, m, d) => ordGetDay (toOrdinal y m d) = 5 ∧ 15 ≤ d ∧ d ≤ 21
  | none => false

/-! ## Data model (`src/app/types.ts`) -/

/-- `GexDataPoint` (`types.ts`), parameterised by the number type `K`
(`ℚ` for exact aggregation layers, `ℝ` for the Black-Scholes layer).
Optional TypeScript fields (`callGamma?` … `expirationDate?`) are `Option`s;
a field absent from an object literal is `none` (JavaScript `undefined`). -/
structure GexDataPoint (K : Type _) where
  strike : K
  gammaExposure : K
  callGamma : Option K := none
  putGamma : Option K := none
  callGEX : Option K := none
  putGEX : Option K := none
  callOpenInt : Option K := none
  putOpenInt : Option K := none
  callIV : Option K := none
  putIV : Option K := none
  underlying : K
  right : Option Char := none
  openInterest : Option K := none
  multiplier : Option K := none
  gamma : Option K := none
  expirationDate : Option JSStr := none
  deriving DecidableEq, Repr

/-- `OptionContract` (`types.ts`); fields never read by the processing core
are omitted. `right` is kept as a raw character, as the source never
validates it beyond comparing against `"P"`/`"C"`. -/
structure OptionContract where
  symbol : JSStr
  lastTradeDate : JSStr
  strike : ℚ
  right : Char
  multiplier : ℚ
  deriving DecidableEq, Repr

/-- `OptionData` (`types.ts`); fields never read by the processing core are
omitted. -/
structure OptionData where
  gamma : ℚ
  undPrice : ℚ
  openInterest : ℚ
  deriving DecidableEq, Repr

/-- `Option` (`types.ts`) — a legacy-format record.  (Renamed: `Option` is
taken by Lean's core.)  `data` is nullable in the inputs the source filters
(`option.data != null`), hence an `Option`. -/
structure LegacyOption where
  contract : OptionContract
  data : Option OptionData
  deriving DecidableEq, Repr

/-- `CBOEOptionData` (`types.ts`); quote fields never read by the
processing core are omitted. -/
structure CBOEOptionData where
  option : JSStr
  iv : ℚ
  open_interest : ℚ
  gamma : ℚ
  deriving DecidableEq, Repr

/-- The `data` payload of `CBOEData` (`types.ts`); fields never read by the
processing core are omitted. -/
structure CBOEDataInner where
  options : List CBOEOptionData
  current_price : ℚ
  deriving DecidableEq, Repr

/-- `CBOEData` (`types.ts`). -/
structure CBOEData where
  timestamp : JSStr
  data : CBOEDataInner
  symbol : JSStr
  deriving DecidableEq, Repr

/-- The `fileFormat` tag of `ProcessedGexData`. -/
inductive FileFormat where
  | legacy
  | cboe
  deriving DecidableEq, Repr

/-- `ProcessedGexData` (`types.ts`).  The `Map<string, GexDataPoint[]>` is
an insertion-ordered association list. -/
structure ProcessedGexData (K : Type _) where
  date : JSStr
  symbol : JSStr
  dataPoints : List (GexDataPoint K)
  underlierPrice : K
  expirationDates : List JSStr
  dataPointsByExpiration : List (JSStr × List (GexDataPoint K))
  fileFormat : FileFormat
  totalGamma : Option K := none
  deriving DecidableEq, Repr

/-! ## Legacy format processing (`utils.ts`) -/

/-- `calculateGammaExposureLegacy` (source `utils.ts`): exposure
`undPrice * gamma * openInterest * multiplier`, negated for puts.  The
source destructures `option.data` without a null check because it is only
called on records that survived the `option.data != null` filter; on a
missing `data` this model returns 0. -/
def calculateGammaExposureLegacy (o : LegacyOption) : ℚ :=
  match o.data with
  | some d =>
    let exposure := d.undPrice * d.gamma * d.openInterest * o.contract.multiplier
    if o.contract.right = 'P' then -exposure else exposure
  | none => 0

/-- The strike-map entry created by `processLegacyOptions` for a
first-seen (expiration, strike) key. -/
def mkLegacyPoint (strike gammaExposure underlierPrice : ℚ) (o : LegacyOption)
    (expirationDate : JSStr) : GexDataPoint ℚ :=
  { strike := strike
    gammaExposure := gammaExposure
    underlying := underlierPrice
    right := some o.contract.right
    openInterest := o.data.map (·.openInterest)
    multiplier := some o.contract.multiplier
    gamma := o.data.map (·.gamma)
    expirationDate := some expirationDate }

/-- One step of the `validOptions.forEach` loop of `processLegacyOptions`:
group the record into the nested (expiration → strike → point) map,
summing `gammaExposure` into an existing point. -/
def legacyInsert (underlierPrice : ℚ)
    (m : List (JSStr × List (ℚ × GexDataPoint ℚ))) (o : LegacyOption) :
    List (JSStr × List (ℚ × GexDataPoint ℚ)) :=
  let expirationDate := o.contract.lastTradeDate
  let strike := o.contract.strike
  let gammaExposure := calculateGammaExposureLegacy o
  let m := if containsKey m expirationDate then m else m ++ [(expirationDate, [])]
  assocUpdate (fun strikeMap =>
    if containsKey strikeMap strike then
      assocUpdate (fun existing =>
        { existing with gammaExposure := existing.gammaExposure + gammaExposure })
        strikeMap strike
    else
      strikeMap ++ [(strike, mkLegacyPoint strike gammaExposure underlierPrice o expirationDate)])
    m expirationDate

/-- `processLegacyOptions` (source `utils.ts`).  The thrown
`"No valid options data provided"` is an `Except.error`. -/
def processLegacyOptions (options : List LegacyOption) :
    Except JSStr (ProcessedGexData ℚ) :=
  let validOptions := options.filter (fun o => o.data.isSome)
  match validOptions with
  | [] => .error "No valid options data provided".toList
  | first :: _ =>
    let underlierPrice := (first.data.map (·.undPrice)).getD 0
    let strikeMapByExp := validOptions.foldl (legacyInsert underlierPrice) []
    let expirationDates := List.insertionSort jsStrLeR (strikeMapByExp.map Prod.fst)
    let dataPointsByExpiration :=
      strikeMapByExp.map (fun p => (p.1, p.2.map Prod.snd))
    let allDataPoints := (dataPointsByExpiration.map Prod.snd).flatten
    .ok
      { date :=
          match expirationDates.head? with
          | some s => if s ≠ [] then s else first.contract.lastTradeDate
          | none => first.contract.lastTradeDate
        symbol := first.contract.symbol
        dataPoints := allDataPoints
        underlierPrice := underlierPrice
        expirationDates := expirationDates
        dataPointsByExpiration := dataPointsByExpiration
        fileFormat := .legacy }

/-! ## CBOE format processing (`utils.ts`) -/

/-- The structured result of `parseCBOEOption`. -/
structure ParsedCBOEOption where
  strike : ℚ
  callPut : JSStr
  expirationDate : JSStr
  deriving DecidableEq, Repr

/-- `x || 0` on an optional number: `undefined`, `0` (and only those, in
this NaN-free model) fall through to `0`. -/
def orZero : Option ℚ → ℚ
  | some v => if v = 0 then 0 else v
  | none => 0

/-- `parseCBOEOption` (source `utils.ts`): decode the trailing
`YYMMDD` + `C|P` + 8-digit-strike layout of the option symbol.  The only
exception path of the source is `toISOString` on an Invalid Date, reached
exactly when one of the `parseInt`s returns `NaN`; that path is `none` here
(the caller's `try/catch` skips the entry).  A non-numeric strike field
would produce a `NaN` strike in the source without throwing; this rational
model is only ever applied to digit strike fields and renders that case
as `0`. -/
def parseCBOEOption (o : CBOEOptionData) : Option ParsedCBOEOption :=
  let optionStr := o.option
  let callPut := jsSlice optionStr (-9) (-8)
  let expirationStr := jsSlice optionStr (-15) (-9)
  let strikeStr := jsSlice1 optionStr (-8)
  match jsParseInt (jsSlice expirationStr 0 2), jsParseInt (jsSlice expirationStr 2 4),
      jsParseInt (jsSlice expirationStr 4 6) with
  | some yy, some mm, some dd =>
    let year := 2000 + yy
    let expirationDate := jsDateToISO year (mm - 1) dd
    let strike := (((jsParseInt strikeStr).getD 0 : ℚ)) / 1000
    some { strike := strike, callPut := callPut, expirationDate := expirationDate }
  | _, _, _ => none

/-- The strike-map entry created by `processCBOEData` for a first-seen
(expiration, strike) key: all per-side fields present and zeroed. -/
def mkCBOEPoint (strike underlierPrice : ℚ) (expirationDate : JSStr) : GexDataPoint ℚ :=
  { strike := strike
    gammaExposure := 0
    underlying := underlierPrice
    callGEX := some 0
    putGEX := some 0
    callOpenInt := some 0
    putOpenInt := some 0
    callGamma := some 0
    putGamma := some 0
    callIV := some 0
    putIV := some 0
    expirationDate := some expirationDate }

/-- The per-side field assignments of the `data.data.options.forEach` body
of `processCBOEData`: the side's open interest, gamma, IV and GEX are
*assigned* (not accumulated), then `gammaExposure` is recomputed as
`(callGEX || 0) + (putGEX || 0)`. -/
def cboeApplySide (underlierPrice : ℚ) (o : CBOEOptionData) (callPut : JSStr)
    (dataPoint : GexDataPoint ℚ) : GexDataPoint ℚ :=
  let dataPoint :=
    if callPut = "C".toList then
      { dataPoint with
        callOpenInt := some o.open_interest
        callGamma := some o.gamma
        callIV := some o.iv
        callGEX := some (o.gamma * o.open_interest * 100 * underlierPrice * underlierPrice * 0.01) }
    else
      { dataPoint with
        putOpenInt := some o.open_interest
        putGamma := some o.gamma
        putIV := some o.iv
        putGEX := some (o.gamma * o.open_interest * 100 * underlierPrice * underlierPrice * 0.01 * (-1)) }
  { dataPoint with gammaExposure := orZero dataPoint.callGEX + orZero dataPoint.putGEX }

/-- One step of the `forEach` loop of `processCBOEData`; a failed decode is
skipped by the source's `try/catch` (with a console diagnostic). -/
def cboeInsert (underlierPrice : ℚ)
    (m : List (JSStr × List (ℚ × GexDataPoint ℚ))) (o : CBOEOptionData) :
    List (JSStr × List (ℚ × GexDataPoint ℚ)) :=
  match parseCBOEOption o with
  | none => m
  | some parsed =>
    let m := if containsKey m parsed.expirationDate then m
             else m ++ [(parsed.expirationDate, [])]
    assocUpdate (fun strikeMap =>
      let strikeMap :=
        if containsKey strikeMap parsed.strike then strikeMap
        else strikeMap ++ [(parsed.strike, mkCBOEPoint parsed.strike underlierPrice parsed.expirationDate)]
      assocUpdate (cboeApplySide underlierPrice o parsed.callPut) strikeMap parsed.strike)
      m parsed.expirationDate

/-- `processCBOEData` (source `utils.ts`). -/
def processCBOEData (data : CBOEData) : ProcessedGexData ℚ :=
  let underlierPrice := data.data.current_price
  let symbol := data.symbol
  let timestamp := data.timestamp
  let strikeMapByExp := data.data.options.foldl (cboeInsert underlierPrice) []
  let expirationDates := List.insertionSort jsStrLeR (strikeMapByExp.map Prod.fst)
  let dataPointsByExpiration := strikeMapByExp.map (fun p => (p.1, p.2.map Prod.snd))
  let allDataPoints := (dataPointsByExpiration.map Prod.snd).flatten
  let totalGamma :=
    (allDataPoints.foldl (fun sum point => sum + (orZero point.callGEX + orZero point.putGEX)) 0) / 1000000000
  { date := timestamp
    symbol := symbol
    dataPoints := allDataPoints
    underlierPrice := underlierPrice
    expirationDates := expirationDates
    dataPointsByExpiration := dataPointsByExpiration
    fileFormat := .cboe
    totalGamma := some totalGamma }

/-! ## Selection / filter layer (`utils.ts`) -/

/-- One step of the inner `points.forEach` of `filterGexData`: accumulate
gamma exposure into the by-strike map (`{ ...point }` denotes a copy, so
the map holds fresh objects — see the heap model below for the aliasing
claim). -/
def filterStep (strikeMap : List (ℚ × GexDataPoint ℚ)) (point : GexDataPoint ℚ) :
    List (ℚ × GexDataPoint ℚ) :=
  if containsKey strikeMap point.strike then
    assocUpdate (fun existing =>
      { existing with gammaExposure := existing.gammaExposure + point.gammaExposure })
      strikeMap point.strike
  else
    strikeMap ++ [(point.strike, point)]

/-- `filterGexData` (source `utils.ts`): re-aggregate the selected
expirations by strike, filter to the strike window, sort descending by
strike (the `b.strike - a.strike` comparator; `mergeSort` shares the
stability of `Array.prototype.sort`). -/
def filterGexData (data : ProcessedGexData ℚ) (selectedDates : List JSStr)
    (strikeRangeMin strikeRangeMax : ℚ) : List (GexDataPoint ℚ) :=
  if selectedDates = [] then []
  else
    let strikeMap := selectedDates.foldl (fun strikeMap date =>
      match assocGet data.dataPointsByExpiration date with
      | some points => points.foldl filterStep strikeMap
      | none => strikeMap) []
    List.insertionSort (fun a b => b.strike ≤ a.strike)
      ((strikeMap.map Prod.snd).filter
        (fun point => strikeRangeMin ≤ point.strike ∧ point.strike ≤ strikeRangeMax))

/-! ## Flip detection (`utils.ts`) -/

/-- A point of the gamma profile consumed by the flip detectors. -/
structure ProfilePoint (K : Type _) where
  spot : K
  totalGamma : K
  deriving DecidableEq, Repr

/-- `findGammaFlips` (source `utils.ts`): for each adjacent pair with a
strict sign change (`current < 0 && next > 0`, or the reverse), record the
left point's spot. -/
def findGammaFlips : List (ProfilePoint ℚ) → List ℚ
  | p :: q :: rest =>
    (if (p.totalGamma < 0 ∧ q.totalGamma > 0) ∨ (p.totalGamma > 0 ∧ q.totalGamma < 0) then
      [p.spot]
    else []) ++ findGammaFlips (q :: rest)
  | _ => []

/-- `findGammaFlipPoint` (source `utils.ts`): on the first adjacent pair
with a strict sign change, linearly interpolate the zero crossing
`posStrike - (posStrike - negStrike) * posGamma / (posGamma - negGamma)`
(the source binds `neg…`/`pos…` to the left/right point in both sign
orders) and return it; `null` when no pair qualifies. -/
def findGammaFlipPoint : List (ProfilePoint ℚ) → Option ℚ
  | p :: q :: rest =>
    if (p.totalGamma < 0 ∧ q.totalGamma > 0) ∨ (p.totalGamma > 0 ∧ q.totalGamma < 0) then
      let negStrike := p.spot
      let posStrike := q.spot
      let negGamma := p.totalGamma
      let posGamma := q.totalGamma
      some (posStrike - ((posStrike - negStrike) * posGamma / (posGamma - negGamma)))
    else findGammaFlipPoint (q :: rest)
  | _ => none

/-! ## Heap model of `filterGexData`

JavaScript objects are reference values: `points.forEach((point) => …)`
iterates *references* into the dataset, and `existing.gammaExposure += …`
mutates the object behind a reference.  To state the frame property ("the
dataset is never mutated") we re-embed `filterGexData` with the object
store explicit: a heap is a list of point values, a dataset holds
references (indices) into it, `{ ...point }` allocates a fresh copy at the
end of the heap, and `+=` updates the heap at the referenced cell.  The
pure embedding above is the denotation of this one for the output values.
-/

/-- The object store: index = object reference. -/
abbrev Heap := List (GexDataPoint ℚ)

/-- A dataset whose per-expiration points are references into a heap
(the fields of `ProcessedGexData` not read by `filterGexData` are
omitted). -/
structure DatasetRefs where
  dataPoints : List ℕ
  dataPointsByExpiration : List (JSStr × List ℕ)
  deriving DecidableEq, Repr

/-- Read a reference (the source only dereferences live objects; a dangling
read yields an arbitrary default, which no theorem relies on). -/
def heapRead (h : Heap) (r : ℕ) : GexDataPoint ℚ :=
  h.getD r { strike := 0, gammaExposure := 0, underlying := 0 }

/-- One step of the inner `points.forEach` of `filterGexData`, heap
version: on a seen strike, mutate `gammaExposure` of the object the
strike-map references; on a fresh strike, allocate the copy `{ ...point }`
and map the strike to the *copy's* reference. -/
def filterStepH (st : List (ℚ × ℕ) × Heap) (r : ℕ) : List (ℚ × ℕ) × Heap :=
  let (strikeMap, h) := st
  let point := heapRead h r
  match assocGet strikeMap point.strike with
  | some er =>
    let existing := heapRead h er
    (strikeMap,
      h.set er { existing with gammaExposure := existing.gammaExposure + point.gammaExposure })
  | none => (strikeMap ++ [(point.strike, h.length)], h ++ [point])

/-- The per-date body of the outer `selectedDates.forEach` of
`filterGexData`, heap version. -/
def filterDateStepH (data : DatasetRefs) (st : List (ℚ × ℕ) × Heap) (date : JSStr) :
    List (ℚ × ℕ) × Heap :=
  match assocGet data.dataPointsByExpiration date with
  | some points => points.foldl filterStepH st
  | none => st

/-- `filterGexData`, heap version: returns the references of the result
array together with the final heap. -/
def filterGexDataH (h : Heap) (data : DatasetRefs) (selectedDates : List JSStr)
    (strikeRangeMin strikeRangeMax : ℚ) : List ℕ × Heap :=
  if selectedDates = [] then ([], h)
  else
    let st := selectedDates.foldl (filterDateStepH data) ([], h)
    (List.insertionSort (fun a b => (heapRead st.2 b).strike ≤ (heapRead st.2 a).strike)
      ((st.1.map Prod.snd).filter (fun r =>
        let point := heapRead st.2 r
        strikeRangeMin ≤ point.strike ∧ point.strike ≤ strikeRangeMax)), st.2)

/-! ## JavaScript float model for the spot-level grid

`calculateGammaProfile` computes its spot levels as
`min + ((max - min) / (numLevels - 1)) * i`.  For `numLevels = 1` this
divides by zero, which in JavaScript produces `±Infinity` (or `NaN` for
`0/0`) and then `Infinity * 0 = NaN` — not an error and not `min`.  The
idealised field semantics used elsewhere would hide this, so the grid is
additionally modelled over IEEE-style values. -/

inductive JSNum where
  | num (q : ℚ)
  | posInf
  | negInf
  | nan
  deriving DecidableEq, Repr

/-- IEEE addition on the model (finite values exact). -/
def jsAdd : JSNum → JSNum → JSNum
  | .num a, .num b => .num (a + b)
  | .nan, _ | _, .nan => .nan
  | .posInf, .negInf | .negInf, .posInf => .nan
  | .posInf, _ | _, .posInf => .posInf
  | .negInf, _ | _, .negInf => .negInf

/-- IEEE subtraction on the model (finite values exact). -/
def jsSub : JSNum → JSNum → JSNum
  | .num a, .num b => .num (a - b)
  | .nan, _ | _, .nan => .nan
  | .posInf, .posInf | .negInf, .negInf => .nan
  | .posInf, _ | _, .negInf => .posInf
  | .negInf, _ | _, .posInf => .negInf

/-- IEEE multiplication on the model (finite values exact;
`±Infinity * 0 = NaN`). -/
def jsMul : JSNum → JSNum → JSNum
  | .num a, .num b => .num (a * b)
  | .nan, _ | _, .nan => .nan
  | .posInf, .num b | .num b, .posInf =>
    if b = 0 then .nan else if 0 < b then .posInf else .negInf
  | .negInf, .num b | .num b, .negInf =>
    if b = 0 then .nan else if 0 < b then .negInf else .posInf
  | .posInf, .posInf | .negInf, .negInf => .posInf
  | .posInf, .negInf | .negInf, .posInf => .negInf

/-- IEEE division on the model (finite values exact; `x / 0` is a signed
infinity for `x ≠ 0` and `NaN` for `0 / 0`; the profile grid never divides
by an infinity). -/
def jsDiv : JSNum → JSNum → JSNum
  | .num a, .num b =>
    if b = 0 then (if a = 0 then .nan else if 0 < a then .posInf else .negInf)
    else .num (a / b)
  | .nan, _ | _, .nan => .nan
  | .num _, .posInf | .num _, .negInf => .num 0
  | .posInf, .posInf | .posInf, .negInf | .negInf, .posInf | .negInf, .negInf => .nan
  | .posInf, .num b => if 0 ≤ b then .posInf else .negInf
  | .negInf, .num b => if 0 ≤ b then .negInf else .posInf

/-- The spot-level grid of `calculateGammaProfile`
(`Array.from({length: numLevels}, (_, i) => min + ((max - min) / (numLevels - 1)) * i)`)
under JavaScript float semantics. -/
def profileLevelsJS (strikeMin strikeMax : ℚ) (numLevels : ℕ) : List JSNum :=
  (List.range numLevels).map (fun i =>
    jsAdd (.num strikeMin)
      (jsMul (jsDiv (jsSub (.num strikeMax) (.num strikeMin)) (.num ((numLevels : ℚ) - 1)))
        (.num (i : ℚ))))

/-! ## Black-Scholes layer (`stats-utils.ts`, `utils.ts`), over `ℝ` -/

/-- `norm.pdf` (source `stats-utils.ts`): the exact standard normal
density `exp(-x²/2) / √(2π)`. -/
noncomputable def normPdf (x : ℝ) : ℝ :=
  Real.exp (-0.5 * x * x) / Real.sqrt (2 * Real.pi)

/-- The `optType` argument of `calcGammaEx`. -/
inductive OptType where
  | call
  | put
  deriving DecidableEq, Repr

/-- `calcGammaEx` (source `utils.ts`): Black-Scholes gamma exposure at
spot `S`, strike `K`, vol, time `T`, rate `r`, yield `q`; `0` when `T` or
`vol` is zero.  The put branch deliberately evaluates the source's distinct
closed form (via `dm`), not the textbook call gamma. -/
noncomputable def calcGammaEx (S K vol T r q : ℝ) (optType : OptType) (OI : ℝ) : ℝ :=
  if T = 0 ∨ vol = 0 then 0
  else
    let dp := (Real.log (S / K) + (r - q + 0.5 * vol ^ 2) * T) / (vol * Real.sqrt T)
    let dm := dp - vol * Real.sqrt T
    let gamma :=
      match optType with
      | .call => Real.exp (-q * T) * normPdf dp / (S * vol * Real.sqrt T)
      | .put => (K * Real.exp (-r * T) * normPdf dm) / (S * S * vol * Real.sqrt T)
    OI * 100 * S * S * 0.01 * gamma

/-- JavaScript truthiness of an optional number (`undefined` and `0` are
falsy; `NaN` does not arise in this model). -/
def jsTruthy (o : Option ℝ) : Prop :=
  match o with
  | some v => v ≠ 0
  | none => False

noncomputable instance (o : Option ℝ) : Decidable (jsTruthy o) := by
  unfold jsTruthy; exact match o with
  | some v => inferInstanceAs (Decidable (v ≠ 0))
  | none => inferInstanceAs (Decidable False)

/-- `o > 0` on an optional number (`undefined > 0` is false). -/
def optPos (o : Option ℝ) : Prop :=
  match o with
  | some v => 0 < v
  | none => False

noncomputable instance (o : Option ℝ) : Decidable (optPos o) := by
  unfold optPos; exact match o with
  | some v => inferInstanceAs (Decidable (0 < v))
  | none => inferInstanceAs (Decidable False)

/-- The strike window argument of `calculateGammaProfile`. -/
structure StrikeRange where
  min : ℝ
  max : ℝ

/-- A point of the profile produced by `calculateGammaProfile`. -/
structure GammaProfilePoint where
  spot : ℝ
  totalGamma : ℝ
  exNextGamma : ℝ
  exMonthlyGamma : ℝ

/-- The six running sums of the per-level loop of
`calculateGammaProfile`: call/put totals, call/put ex-next-expiry, call/put
ex-next-monthly. -/
structure GammaSums where
  totalCallGamma : ℝ := 0
  totalPutGamma : ℝ := 0
  totalCallGammaExNext : ℝ := 0
  totalPutGammaExNext : ℝ := 0
  totalCallGammaExMonthly : ℝ := 0
  totalPutGammaExMonthly : ℝ := 0

/-- The `dataPoints.forEach` body of `calculateGammaProfile` at one spot
level: per side, if the point has truthy open interest and IV and `IV > 0`,
price the side's gamma exposure with `calcGammaEx` and accumulate it into
the three sums (puts negatively). -/
noncomputable def profilePointStep (today : JSDateTime) (nextExpiry nextMonthlyExp : Option JSStr)
    (spotLevel : ℝ) (acc : GammaSums) (point : GexDataPoint ℝ) : GammaSums :=
  let expDate : JSDate :=
    match point.expirationDate with
    | some s =>
      match parseISODate s with
      | some (y, m, d) => some { ord := toOrdinal y m d, tod := 0 }
      | none => none
    | none => some today
  let daysToExp : ℝ := (max 1 (countBusinessDays (some today) expDate) : ℕ) / 252
  let acc :=
    if jsTruthy point.callOpenInt ∧ jsTruthy point.callIV ∧ optPos point.callIV then
      let callGex := calcGammaEx spotLevel point.strike ((point.callIV).getD 0) daysToExp 0 0
        .call ((point.callOpenInt).getD 0)
      { acc with
        totalCallGamma := acc.totalCallGamma + callGex
        totalCallGammaExNext :=
          if point.expirationDate ≠ nextExpiry then acc.totalCallGammaExNext + callGex
          else acc.totalCallGammaExNext
        totalCallGammaExMonthly :=
          if point.expirationDate ≠ nextMonthlyExp then acc.totalCallGammaExMonthly + callGex
          else acc.totalCallGammaExMonthly }
    else acc
  if jsTruthy point.putOpenInt ∧ jsTruthy point.putIV ∧ optPos point.putIV then
    let putGex := calcGammaEx spotLevel point.strike ((point.putIV).getD 0) daysToExp 0 0
      .put ((point.putOpenInt).getD 0)
    { acc with
      totalPutGamma := acc.totalPutGamma - putGex
      totalPutGammaExNext :=
        if point.expirationDate ≠ nextExpiry then acc.totalPutGammaExNext - putGex
        else acc.totalPutGammaExNext
      totalPutGammaExMonthly :=
        if point.expirationDate ≠ nextMonthlyExp then acc.totalPutGammaExMonthly - putGex
        else acc.totalPutGammaExMonthly }
  else acc

/-- `calculateGammaProfile` (source `utils.ts`).  The source reads the
wall clock (`const today = new Date()`) inside the computation; the clock
is therefore an explicit parameter `today` here (a fixed instant per
invocation).  Spot levels use the idealised field semantics (see
`profileLevelsJS` for the `numLevels = 1` degeneracy). -/
noncomputable def calculateGammaProfile (today : JSDateTime)
    (dataPoints : List (GexDataPoint ℝ)) (strikeRange : StrikeRange)
    (numLevels : ℕ := 30) : List GammaProfilePoint :=
  let levels := (List.range numLevels).map (fun i =>
    strikeRange.min + ((strikeRange.max - strikeRange.min) / ((numLevels : ℝ) - 1)) * (i : ℝ))
  let expirationDates :=
    List.insertionSort jsStrLeR (jsSetDedup [] (((dataPoints.map (·.expirationDate)).filterMap id).filter
      (fun s => s ≠ [])))
  let nextExpiry : Option JSStr := expirationDates.head?
  let thirdFridays := expirationDates.filter isThirdFriday
  let nextMonthlyExp : Option JSStr := thirdFridays.head?
  levels.map (fun spotLevel =>
    let sums := dataPoints.foldl (profilePointStep today nextExpiry nextMonthlyExp spotLevel) {}
    { spot := spotLevel
      totalGamma := sums.totalCallGamma + sums.totalPutGamma
      exNextGamma := sums.totalCallGammaExNext + sums.totalPutGammaExNext
      exMonthlyGamma := sums.totalCallGammaExMonthly + sums.totalPutGammaExMonthly })

/-- Exact embedding of a rational-model point into the real-model point
type (the source has a single number type; the aggregation layers are
modelled exactly over `ℚ` and injected into `ℝ` for the profile layer). -/
def castPoint (p : GexDataPoint ℚ) : GexDataPoint ℝ :=
  { strike := (p.strike : ℝ)
    gammaExposure := (p.gammaExposure : ℝ)
    callGamma := p.callGamma.map (fun x => (x : ℝ))
    putGamma := p.putGamma.map (fun x => (x : ℝ))
    callGEX := p.callGEX.map (fun x => (x : ℝ))
    putGEX := p.putGEX.map (fun x => (x : ℝ))
    callOpenInt := p.callOpenInt.map (fun x => (x : ℝ))
    putOpenInt := p.putOpenInt.map (fun x => (x : ℝ))
    callIV := p.callIV.map (fun x => (x : ℝ))
    putIV := p.putIV.map (fun x => (x : ℝ))
    underlying := (p.underlying : ℝ)
    right := p.right
    openInterest := p.openInterest.map (fun x => (x : ℝ))
    multiplier := p.multiplier.map (fun x => (x : ℝ))
    gamma := p.gamma.map (fun x => (x : ℝ))
    expirationDate := p.expirationDate }

/-! ## Concrete inputs used by the claim theorems -/

deriving instance DecidableEq for Except

/-- The call record of the end-to-end legacy example: strike 100, gamma
0.001, open interest 10, multiplier 50, underlying price 105. -/
def c2Call : LegacyOption :=
  { contract := { symbol := "SPX".toList, lastTradeDate := "20250117".toList,
                  strike := 100, right := 'C', multiplier := 50 },
    data := some { gamma := 1/1000, undPrice := 105, openInterest := 10 } }

/-- The put record of the end-to-end legacy example: same strike and
expiration, gamma 0.001, open interest 5, multiplier 50, underlying 105. -/
def c2Put : LegacyOption :=
  { contract := { symbol := "SPX".toList, lastTradeDate := "20250117".toList,
                  strike := 100, right := 'P', multiplier := 50 },
    data := some { gamma := 1/1000, undPrice := 105, openInterest := 5 } }

/-- The single aggregated point the two example records produce:
`105·0.001·10·50 − 105·0.001·5·50 = 52.5 − 26.25 = 26.25 = 105/4`. -/
def c2Point : GexDataPoint ℚ :=
  { strike := 100
    gammaExposure := 105/4
    underlying := 105
    right := some 'C'
    openInterest := some 10
    multiplier := some 50
    gamma := some (1/1000)
    expirationDate := some "20250117".toList }

/-- The full dataset the two example records produce. -/
def c2Expected : ProcessedGexData ℚ :=
  { date := "20250117".toList
    symbol := "SPX".toList
    dataPoints := [c2Point]
    underlierPrice := 105
    expirationDates := ["20250117".toList]
    dataPointsByExpiration := [("20250117".toList, [c2Point])]
    fileFormat := .legacy }

/-- C2 counterexample: on the claim's two legacy records the aggregated
exposure is `105/4 = 26.25`, not `2625` — the claim's arithmetic
(`105·0.001·10·50 = 5250`) is off by a factor of 100. -/
theorem c2_exposure_is_26_25_not_2625 :
    (processLegacyOptions [c2Call, c2Put]).map
        (fun d => d.dataPoints.map (fun p => (p.strike, p.gammaExposure))) =
      Except.ok [((100 : ℚ), (105 : ℚ)/4)] ∧ ((105 : ℚ)/4) ≠ 2625 := by
  constructor
  · simp only [processLegacyOptions, legacyInsert, mkLegacyPoint, calculateGammaExposureLegacy,
      containsKey, assocUpdate, c2Call, c2Put, List.filter, List.foldl, List.insertionSort,
      List.orderedInsert, Option.isSome, Except.map, List.map, Char.reduceEq, reduceIte]
    norm_num
  · norm_num

/-- C2 (amended): on the claim's two legacy records, `processLegacyOptions`
yields exactly one `NormalizedStrikePoint`, at strike 100, whose total
gamma exposure is `26.25` (= 105/4); the full output dataset is
`c2Expected`. -/
theorem c2_end_to_end_legacy_example :
    processLegacyOptions [c2Call, c2Put] = Except.ok c2Expected := by
  simp only [processLegacyOptions, legacyInsert, mkLegacyPoint, calculateGammaExposureLegacy,
    containsKey, assocUpdate, c2Call, c2Put, c2Expected, c2Point, List.filter, List.foldl,
    List.insertionSort, List.orderedInsert, Option.isSome, Char.reduceEq, reduceIte]
  norm_num

/-- The strict sign-change test both flip detectors apply to an adjacent
pair of profile points. -/
def strictSignChange (pq : ProfilePoint ℚ × ProfilePoint ℚ) : Prop :=
  (pq.1.totalGamma < 0 ∧ 0 < pq.2.totalGamma) ∨ (0 < pq.1.totalGamma ∧ pq.2.totalGamma < 0)

instance (pq : ProfilePoint ℚ × ProfilePoint ℚ) : Decidable (strictSignChange pq) := by
  unfold strictSignChange; infer_instance

/-- C3 counterexample: the adjacent pair with gammas `(-5, 0)` is *not*
detected as a crossing by either entry point — zero does not count as
non-negative for the detectors, which require strictly opposite signs. -/
theorem flips_do_not_detect_minus5_zero :
    findGammaFlips [⟨100, -5⟩, ⟨110, 0⟩] = [] ∧
      findGammaFlipPoint [⟨100, -5⟩, ⟨110, 0⟩] = none := by
  constructor <;> · simp only [findGammaFlips, findGammaFlipPoint]
                    norm_num

/-- C3 (amended): both flip detectors report a sign change between an
adjacent pair exactly when one gamma is strictly negative and the other
strictly positive (zero never participates); in particular the pair
`(-5, 0)` is not detected. -/
theorem flip_detectors_strict_sign_change :
    (∀ ps : List (ProfilePoint ℚ),
        findGammaFlips ps =
          (ps.zip ps.tail).filterMap
            (fun pq => if strictSignChange pq then some pq.1.spot else none)) ∧
      (∀ ps : List (ProfilePoint ℚ),
        (findGammaFlipPoint ps).isSome ↔ ∃ pq ∈ ps.zip ps.tail, strictSignChange pq) ∧
      findGammaFlips [⟨100, -5⟩, ⟨110, 0⟩] = [] ∧
      findGammaFlipPoint [⟨100, -5⟩, ⟨110, 0⟩] = none := by
  have hstep : ∀ (p q : ProfilePoint ℚ) (rest : List (ProfilePoint ℚ)),
      findGammaFlips (p :: q :: rest) =
        (if strictSignChange (p, q) then [p.spot] else []) ++ findGammaFlips (q :: rest) := by
    intro p q rest
    by_cases h : strictSignChange (p, q) <;>
      · rcases Decidable.em (strictSignChange (p, q)) with h' | h' <;>
          first
            | (rw [findGammaFlips, if_pos (by exact h'), if_pos h']
               try exact absurd h' h)
            | (rw [findGammaFlips, if_neg (by exact h'), if_neg h']
               try exact absurd h h')
  have hstepP : ∀ (p q : ProfilePoint ℚ) (rest : List (ProfilePoint ℚ)),
      findGammaFlipPoint (p :: q :: rest) =
        if strictSignChange (p, q) then
          some (q.spot - ((q.spot - p.spot) * q.totalGamma / (q.totalGamma - p.totalGamma)))
        else findGammaFlipPoint (q :: rest) := by
    intro p q rest
    rcases Decidable.em (strictSignChange (p, q)) with h' | h' <;>
      first
        | rw [findGammaFlipPoint, if_pos (by exact h'), if_pos h']
        | rw [findGammaFlipPoint, if_neg (by exact h'), if_neg h']
  refine ⟨?_, ?_, ?_, ?_⟩
  · intro ps
    induction ps with
    | nil => simp [findGammaFlips]
    | cons p tail ih =>
      cases tail with
      | nil => simp [findGammaFlips]
      | cons q rest =>
        rw [hstep, ih]
        simp only [List.tail_cons, List.zip_cons_cons, List.filterMap_cons]
        by_cases h : strictSignChange (p, q)
        · rw [if_pos h, if_pos h]
          rfl
        · rw [if_neg h, if_neg h]
          rfl
  · intro ps
    induction ps with
    | nil => simp [findGammaFlipPoint]
    | cons p tail ih =>
      cases tail with
      | nil => simp [findGammaFlipPoint]
      | cons q rest =>
        rw [hstepP]
        simp only [List.tail_cons, List.zip_cons_cons, List.mem_cons] at *
        by_cases h : strictSignChange (p, q)
        · rw [if_pos h]
          simp only [Option.isSome_some, true_iff]
          exact ⟨(p, q), Or.inl rfl, h⟩
        · rw [if_neg h, ih]
          constructor
          · rintro ⟨pq, hmem, hpq⟩
            exact ⟨pq, Or.inr hmem, hpq⟩
          · rintro ⟨pq, hmem, hpq⟩
            rcases hmem with heq | hmem
            · exact absurd (heq ▸ hpq) h
            · exact ⟨pq, hmem, hpq⟩
  · simp only [findGammaFlips, findGammaFlipPoint]
    norm_num
  · simp only [findGammaFlips, findGammaFlipPoint]
    norm_num

/-- Unfolding of `findGammaFlipPoint` on two leading points: interpolate on
a strict sign change, otherwise recurse. -/
theorem findGammaFlipPoint_cons₂ (p q : ProfilePoint ℚ) (rest : List (ProfilePoint ℚ)) :
    findGammaFlipPoint (p :: q :: rest) =
      if strictSignChange (p, q) then
        some (q.spot - ((q.spot - p.spot) * q.totalGamma / (q.totalGamma - p.totalGamma)))
      else findGammaFlipPoint (q :: rest) := by
  rcases Decidable.em (strictSignChange (p, q)) with h' | h' <;>
    first
      | rw [findGammaFlipPoint, if_pos (by exact h'), if_pos h']
      | rw [findGammaFlipPoint, if_neg (by exact h'), if_neg h']

/-- C4: when the profile has an adjacent pair of strictly opposite-signed
gammas, `findGammaFlipPoint` returns the linear interpolation
`posX − (posX − negX) × posGamma / (posGamma − negGamma)` computed from the
*first* such pair in scan order (`posX`/`posGamma` taken from whichever of
the two points carries the positive gamma), ignoring later crossings. -/
theorem findGammaFlipPoint_first_crossing (ps : List (ProfilePoint ℚ))
    (a b : ProfilePoint ℚ)
    (hfind : (ps.zip ps.tail).find? (fun pq => decide (strictSignChange pq)) = some (a, b)) :
    findGammaFlipPoint ps =
      some (if 0 < a.totalGamma then
          a.spot - (a.spot - b.spot) * a.totalGamma / (a.totalGamma - b.totalGamma)
        else
          b.spot - (b.spot - a.spot) * b.totalGamma / (b.totalGamma - a.totalGamma)) := by
  induction ps with
  | nil => simp at hfind
  | cons p tail ih =>
    cases tail with
    | nil => simp at hfind
    | cons q rest =>
      rw [findGammaFlipPoint_cons₂]
      simp only [List.tail_cons, List.zip_cons_cons] at hfind
      by_cases h : strictSignChange (p, q)
      · rw [List.find?_cons_of_pos _ (by simpa using h)] at hfind
        injection hfind with h2
        injection h2 with ha hb
        subst ha
        subst hb
        rw [if_pos h]
        rcases h with ⟨hneg, hpos⟩ | ⟨hpos, hneg⟩
        · rw [if_neg (by exact not_lt.mpr (le_of_lt hneg))]
        · rw [if_pos hpos]
          have hd : q.totalGamma - p.totalGamma ≠ 0 := by
            intro hc
            rw [sub_eq_zero] at hc
            exact absurd (hc ▸ hneg) (not_lt.mpr (le_of_lt hpos))
          have hd' : p.totalGamma - q.totalGamma ≠ 0 := by
            intro hc
            rw [sub_eq_zero] at hc
            exact absurd (hc ▸ hpos) (not_lt.mpr (le_of_lt hneg))
          congr 1
          field_simp
          ring
      · rw [List.find?_cons_of_neg _ (by simpa using h)] at hfind
        rw [if_neg h]
        exact ih hfind

/-- Witness for C4: on the synthetic curve `[(100, -5), (110, 3)]` the
interpolated flip point is exactly `106.25 = 425/4`. -/
theorem findGammaFlipPoint_first_crossing_witness :
    findGammaFlipPoint [⟨100, -5⟩, ⟨110, 3⟩] = some ((425 : ℚ)/4) := by
  have h := findGammaFlipPoint_first_crossing [⟨100, -5⟩, ⟨110, 3⟩] ⟨100, -5⟩ ⟨110, 3⟩ (by
    simp only [List.tail_cons, List.zip_cons_cons]
    rw [List.find?_cons_of_pos]
    simp only [strictSignChange, decide_eq_true_eq]
    norm_num)
  rw [h]
  norm_num

/-- A one-point dataset used to exercise the filter layer: a single
expiration `"d"` carrying one point at strike 7. -/
def pt7 : GexDataPoint ℚ :=
  { strike := 7, gammaExposure := 1, underlying := 10, expirationDate := some "d".toList }

/-- The dataset holding `pt7`. -/
def dataset7 : ProcessedGexData ℚ :=
  { date := "d".toList
    symbol := "s".toList
    dataPoints := [pt7]
    underlierPrice := 10
    expirationDates := ["d".toList]
    dataPointsByExpiration := [("d".toList, [pt7])]
    fileFormat := .legacy }

/-- C5 counterexample: with the claim's window relation `a' ≤ a` and
`b' ≤ b` (here `[a, b] = [0, 10]`, `[a', b'] = [0, 5]`), the point at
strike 7 is returned for `[0, 10]` but *not* for `[0, 5]`: shrinking the
upper bound is not a superset operation, so the claim's inequality on `b`
points the wrong way. -/
theorem filterGexData_not_monotone_in_claimed_direction :
    (0 : ℚ) ≤ 0 ∧ (5 : ℚ) ≤ 10 ∧
      pt7 ∈ filterGexData dataset7 ["d".toList] 0 10 ∧
      pt7 ∉ filterGexData dataset7 ["d".toList] 0 5 := by
  refine ⟨le_refl 0, by norm_num, ?_, ?_⟩ <;>
    · simp only [filterGexData, dataset7, pt7, filterStep, containsKey, assocGet, assocUpdate,
        List.foldl, List.insertionSort, List.orderedInsert, List.filter, List.map]
      norm_num

/-- C5 (amended): filtering is monotone when the window is widened on both
sides in the correct directions: for `a' ≤ a` and `b ≤ b'`, every point
returned by `filterGexData` for the window `[a, b]` also appears in its
result for `[a', b']` (the aggregation phase is window-independent and the
window only appears in the final `filter`). -/
theorem filterGexData_window_monotone (data : ProcessedGexData ℚ)
    (selectedDates : List JSStr) (a b a' b' : ℚ) (ha : a' ≤ a) (hb : b ≤ b')
    (p : GexDataPoint ℚ) (hp : p ∈ filterGexData data selectedDates a b) :
    p ∈ filterGexData data selectedDates a' b' := by
  by_cases hsel : selectedDates = []
  · rw [filterGexData, if_pos hsel] at hp
    simp at hp
  · rw [filterGexData, if_neg hsel] at hp ⊢
    rw [List.mem_insertionSort] at hp ⊢
    rw [List.mem_filter] at hp ⊢
    refine ⟨hp.1, ?_⟩
    have h2 := hp.2
    simp only [decide_eq_true_eq] at h2 ⊢
    exact ⟨le_trans ha h2.1, le_trans h2.2 hb⟩

/-- Witness for C5: widening `[0, 10]` to `[0, 12]` keeps the strike-7
point in the result. -/
theorem filterGexData_window_monotone_witness :
    pt7 ∈ filterGexData dataset7 ["d".toList] 0 12 := by
  refine filterGexData_window_monotone dataset7 ["d".toList] 0 10 0 12 (le_refl 0)
    (by norm_num) pt7 ?_
  simp only [filterGexData, dataset7, pt7, filterStep, containsKey, assocGet, assocUpdate,
    List.foldl, List.insertionSort, List.orderedInsert, List.filter, List.map]
  norm_num

/-- C7: at the degenerate sample count `numLevels = 1` (window `[0, 10]`),
the spot-level grid divides by `numLevels - 1 = 0`: under JavaScript float
semantics the computation is `0 + ((10 - 0) / 0) * 0 = Infinity * 0 = NaN`,
so the source neither rejects the input nor produces the single level
`min` — it emits a single `NaN` level. -/
theorem profileLevels_one_level_is_nan :
    profileLevelsJS 0 10 1 = [JSNum.nan] ∧ JSNum.nan ≠ JSNum.num 0 := by
  constructor
  · simp only [profileLevelsJS, List.range_succ, List.range_zero, List.map, List.nil_append,
      jsSub, jsDiv, jsMul, jsAdd]
    norm_num
  · intro h
    cases h

/-- Character code of a decimal digit. -/
theorem toNat_natDigit (a : ℕ) (h : a < 10) : (natDigit a).toNat = 48 + a := by
  interval_cases a <;> decide

/-- Decimal digit characters satisfy the digit test. -/
theorem isDigitChar_natDigit (a : ℕ) (h : a < 10) : isDigitChar (natDigit a) = true := by
  interval_cases a <;> decide

/-- The numeric value of a list of decimal digits (most significant
first). -/
def digitsVal (ks : List ℕ) : ℤ := ks.foldl (fun a k => 10 * a + (k : ℤ)) 0

/-- `parseInt` on a non-empty all-digit string yields its numeric value. -/
theorem jsParseInt_digits (ks : List ℕ) (hd : ∀ x ∈ ks, x < 10) (hne : ks ≠ []) :
    jsParseInt (ks.map natDigit) = some (digitsVal ks) := by
  have htake : (ks.map natDigit).takeWhile isDigitChar = ks.map natDigit :=
    List.takeWhile_eq_self_iff.mpr (by
      intro c hc
      rcases List.mem_map.mp hc with ⟨k, hk, rfl⟩
      exact isDigitChar_natDigit k (hd k hk))
  rw [jsParseInt]
  simp only [htake]
  rw [if_neg (by simpa using hne)]
  have hfold : ∀ (ks' : List ℕ), (∀ x ∈ ks', x < 10) → ∀ (acc : ℤ),
      List.foldl (fun a c => 10 * a + ((c.toNat : ℤ) - 48)) acc (ks'.map natDigit) =
        List.foldl (fun a k => 10 * a + (k : ℤ)) acc ks' := by
    intro ks' h
    induction ks' with
    | nil => intro acc; rfl
    | cons k t ih =>
      intro acc
      simp only [List.map, List.foldl]
      rw [toNat_natDigit k (h k (by simp))]
      have hcast : ((48 + k : ℕ) : ℤ) - 48 = (k : ℤ) := by push_cast; ring
      rw [hcast]
      exact ih (fun x hx => h x (by simp [hx])) _
  congr 1
  rw [digitsVal]
  exact hfold ks hd 0

/-- Negative-index two-argument `slice` on a string with a distinguished
suffix only reads the suffix. -/
theorem jsSlice_neg_append (pre suf : JSStr) (s e : ℤ)
    (hs : -(suf.length : ℤ) ≤ s) (hse : s < 0) (he2 : -(suf.length : ℤ) ≤ e) (he : e < 0) :
    jsSlice (pre ++ suf) s e =
      (suf.take (((suf.length : ℤ) + e).toNat)).drop (((suf.length : ℤ) + s).toNat) := by
  rw [jsSlice]
  have hlen : ((pre ++ suf).length : ℤ) = (pre.length : ℤ) + (suf.length : ℤ) := by
    simp
  rw [if_pos hse, if_pos he]
  simp only [hlen]
  have hs' : ((max ((pre.length : ℤ) + (suf.length : ℤ) + s) 0).toNat) =
      pre.length + (((suf.length : ℤ) + s).toNat) := by omega
  have he' : ((max ((pre.length : ℤ) + (suf.length : ℤ) + e) 0).toNat) =
      pre.length + (((suf.length : ℤ) + e).toNat) := by omega
  rw [hs', he', List.take_append, List.drop_append]

/-- Negative-index one-argument `slice` on a string with a distinguished
suffix only reads the suffix. -/
theorem jsSlice1_neg_append (pre suf : JSStr) (s : ℤ)
    (hs : -(suf.length : ℤ) ≤ s) (hse : s < 0) :
    jsSlice1 (pre ++ suf) s = suf.drop (((suf.length : ℤ) + s).toNat) := by
  rw [jsSlice1]
  have hlen : ((pre ++ suf).length : ℤ) = (pre.length : ℤ) + (suf.length : ℤ) := by
    simp
  rw [if_pos hse]
  simp only [hlen]
  have hs' : ((max ((pre.length : ℤ) + (suf.length : ℤ) + s) 0).toNat) =
      pre.length + (((suf.length : ℤ) + s).toNat) := by omega
  rw [hs', List.drop_append]

/-- C6: on any identifier whose trailing 15 characters are `YYMMDD`, then
`C` or `P`, then 8 digits (with `MMDD` a valid calendar date), the Symbol
Decoder returns strike = digits/1000, the right character, and the
expiration date `20YY-MM-DD`. -/
theorem parseCBOEOption_decodes (o : CBOEOptionData) (pre : JSStr)
    (y1 y2 m1 m2 d1 d2 : ℕ) (cp : Char) (ks : List ℕ)
    (hy1 : y1 < 10) (hy2 : y2 < 10) (hm1 : m1 < 10) (hm2 : m2 < 10)
    (hd1 : d1 < 10) (hd2 : d2 < 10)
    (hkslen : ks.length = 8) (hksd : ∀ x ∈ ks, x < 10)
    (hmlo : 1 ≤ 10 * m1 + m2) (hmhi : 10 * m1 + m2 ≤ 12)
    (hdlo : 1 ≤ 10 * d1 + d2)
    (hdhi : (10 * d1 + d2 : ℤ) ≤ daysInMonth (2000 + (10 * y1 + y2)) (10 * m1 + m2))
    (ho : o.option = pre ++ [natDigit y1, natDigit y2, natDigit m1, natDigit m2,
        natDigit d1, natDigit d2, cp] ++ ks.map natDigit) :
    parseCBOEOption o = some
      { strike := ((digitsVal ks : ℤ) : ℚ) / 1000
        callPut := [cp]
        expirationDate := ['2', '0', natDigit y1, natDigit y2, '-',
          natDigit m1, natDigit m2, '-', natDigit d1, natDigit d2] } := by
  have hho : o.option = pre ++ ([natDigit y1, natDigit y2, natDigit m1, natDigit m2,
      natDigit d1, natDigit d2, cp] ++ ks.map natDigit) := by
    rw [ho, List.append_assoc]
  have hsuflen : (([natDigit y1, natDigit y2, natDigit m1, natDigit m2,
      natDigit d1, natDigit d2, cp] ++ ks.map natDigit).length : ℤ) = 15 := by
    simp [hkslen]
  have hcp : jsSlice o.option (-9) (-8) = [cp] := by
    rw [hho, jsSlice_neg_append _ _ _ _ (by rw [hsuflen]; try norm_num) (by norm_num)
      (by rw [hsuflen]; try norm_num) (by norm_num), hsuflen]
    norm_num
    try rfl
  have hexp : jsSlice o.option (-15) (-9) =
      [natDigit y1, natDigit y2, natDigit m1, natDigit m2, natDigit d1, natDigit d2] := by
    rw [hho, jsSlice_neg_append _ _ _ _ (by rw [hsuflen]; try norm_num) (by norm_num)
      (by rw [hsuflen]; try norm_num) (by norm_num), hsuflen]
    norm_num
    try rfl
  have hstrikeStr : jsSlice1 o.option (-8) = ks.map natDigit := by
    rw [hho, jsSlice1_neg_append _ _ _ (by rw [hsuflen]; try norm_num) (by norm_num), hsuflen]
    norm_num
    try rfl
  have hyy : jsParseInt (jsSlice [natDigit y1, natDigit y2, natDigit m1, natDigit m2,
      natDigit d1, natDigit d2] 0 2) = some (10 * (y1 : ℤ) + y2) := by
    rw [show jsSlice [natDigit y1, natDigit y2, natDigit m1, natDigit m2,
        natDigit d1, natDigit d2] 0 2 = [y1, y2].map natDigit from rfl]
    rw [jsParseInt_digits [y1, y2] (by
      intro x hx
      rcases List.mem_cons.mp hx with rfl | hx'
      · exact hy1
      · rcases List.mem_cons.mp hx' with rfl | h
        · exact hy2
        · simp at h) (by simp)]
    simp [digitsVal]
  have hmm : jsParseInt (jsSlice [natDigit y1, natDigit y2, natDigit m1, natDigit m2,
      natDigit d1, natDigit d2] 2 4) = some (10 * (m1 : ℤ) + m2) := by
    rw [show jsSlice [natDigit y1, natDigit y2, natDigit m1, natDigit m2,
        natDigit d1, natDigit d2] 2 4 = [m1, m2].map natDigit from rfl]
    rw [jsParseInt_digits [m1, m2] (by
      intro x hx
      rcases List.mem_cons.mp hx with rfl | hx'
      · exact hm1
      · rcases List.mem_cons.mp hx' with rfl | h
        · exact hm2
        · simp at h) (by simp)]
    simp [digitsVal]
  have hdd : jsParseInt (jsSlice [natDigit y1, natDigit y2, natDigit m1, natDigit m2,
      natDigit d1, natDigit d2] 4 6) = some (10 * (d1 : ℤ) + d2) := by
    rw [show jsSlice [natDigit y1, natDigit y2, natDigit m1, natDigit m2,
        natDigit d1, natDigit d2] 4 6 = [d1, d2].map natDigit from rfl]
    rw [jsParseInt_digits [d1, d2] (by
      intro x hx
      rcases List.mem_cons.mp hx with rfl | hx'
      · exact hd1
      · rcases List.mem_cons.mp hx' with rfl | h
        · exact hd2
        · simp at h) (by simp)]
    simp [digitsVal]
  have hks : jsParseInt (ks.map natDigit) = some (digitsVal ks) :=
    jsParseInt_digits ks hksd (by
      intro hc
      rw [hc] at hkslen
      simp at hkslen)
  have hiso : jsDateToISO (2000 + (10 * (y1 : ℤ) + y2)) (10 * (m1 : ℤ) + m2 - 1)
      (10 * (d1 : ℤ) + d2) =
      ['2', '0', natDigit y1, natDigit y2, '-', natDigit m1, natDigit m2, '-',
        natDigit d1, natDigit d2] := by
    have hnm : normMonths (2000 + (10 * (y1 : ℤ) + y2)) (10 * (m1 : ℤ) + m2 - 1) =
        (2000 + (10 * (y1 : ℤ) + y2), 10 * (m1 : ℤ) + m2 - 1) := by
      simp only [normMonths, Prod.mk.injEq]
      exact ⟨by omega, by omega⟩
    have hnd : normDaysFuel 1000 (2000 + (10 * (y1 : ℤ) + y2)) (10 * (m1 : ℤ) + m2 - 1 + 1)
        (10 * (d1 : ℤ) + d2) =
        (2000 + (10 * (y1 : ℤ) + y2), 10 * (m1 : ℤ) + m2, 10 * (d1 : ℤ) + d2) := by
      rw [show (1000 : ℕ) = 999 + 1 from rfl, normDaysFuel]
      rw [if_neg (by omega)]
      rw [show ((10 : ℤ) * (m1 : ℤ) + (m2 : ℤ) - 1 + 1) = 10 * (m1 : ℤ) + m2 by ring]
      rw [if_neg (not_lt.mpr hdhi)]
    rw [jsDateToISO, jsDateNormalize, hnm]
    simp only
    rw [hnd]
    simp only [pad4, pad2]
    have c1 : (((2000 + (10 * (y1 : ℤ) + y2)) / 1000) % 10).toNat = 2 := by omega
    have c2 : (((2000 + (10 * (y1 : ℤ) + y2)) / 100) % 10).toNat = 0 := by omega
    have c3 : (((2000 + (10 * (y1 : ℤ) + y2)) / 10) % 10).toNat = y1 := by omega
    have c4 : ((2000 + (10 * (y1 : ℤ) + y2)) % 10).toNat = y2 := by omega
    have c5 : (((10 * (m1 : ℤ) + m2) / 10) % 10).toNat = m1 := by omega
    have c6 : ((10 * (m1 : ℤ) + m2) % 10).toNat = m2 := by omega
    have c7 : (((10 * (d1 : ℤ) + d2) / 10) % 10).toNat = d1 := by omega
    have c8 : ((10 * (d1 : ℤ) + d2) % 10).toNat = d2 := by omega
    rw [c1, c2, c3, c4, c5, c6, c7, c8]
    rfl
  rw [parseCBOEOption]
  simp only [hcp, hexp, hstrikeStr, hyy, hmm, hdd, hks, Option.getD_some]
  rw [hiso]

/-- C6: the Symbol Decoder contract — for every identifier string whose
trailing 15 characters are `YYMMDD` (a valid date), then `C` or `P`, then 8
digits, `parseCBOEOption` returns strike = digits/1000, the right
character, and the ISO expiration date `20YY-MM-DD`. -/
theorem parseCBOEOption_spec (o : CBOEOptionData) (pre : JSStr)
    (y1 y2 m1 m2 d1 d2 : ℕ) (cp : Char) (ks : List ℕ)
    (hy1 : y1 < 10) (hy2 : y2 < 10) (hm1 : m1 < 10) (hm2 : m2 < 10)
    (hd1 : d1 < 10) (hd2 : d2 < 10)
    (hkslen : ks.length = 8) (hksd : ∀ x ∈ ks, x < 10)
    (_hcp : cp = 'C' ∨ cp = 'P')
    (hmlo : 1 ≤ 10 * m1 + m2) (hmhi : 10 * m1 + m2 ≤ 12)
    (hdlo : 1 ≤ 10 * d1 + d2)
    (hdhi : (10 * d1 + d2 : ℤ) ≤ daysInMonth (2000 + (10 * y1 + y2)) (10 * m1 + m2))
    (ho : o.option = pre ++ [natDigit y1, natDigit y2, natDigit m1, natDigit m2,
        natDigit d1, natDigit d2, cp] ++ ks.map natDigit) :
    parseCBOEOption o = some
      { strike := ((digitsVal ks : ℤ) : ℚ) / 1000
        callPut := [cp]
        expirationDate := ['2', '0', natDigit y1, natDigit y2, '-',
          natDigit m1, natDigit m2, '-', natDigit d1, natDigit d2] } :=
  parseCBOEOption_decodes o pre y1 y2 m1 m2 d1 d2 cp ks hy1 hy2 hm1 hm2 hd1 hd2
    hkslen hksd hmlo hmhi hdlo hdhi ho

/-- Witness for C6: decoding `"CMG251031C00016000"` yields strike `16`,
right `C`, and expiration `"2025-10-31"`. -/
theorem parseCBOEOption_spec_witness :
    parseCBOEOption
        { option := "CMG251031C00016000".toList, iv := 1, open_interest := 1, gamma := 1 } =
      some { strike := 16, callPut := "C".toList, expirationDate := "2025-10-31".toList } := by
  have h := parseCBOEOption_spec
    { option := "CMG251031C00016000".toList, iv := 1, open_interest := 1, gamma := 1 }
    "CMG".toList 2 5 1 0 3 1 'C' [0, 0, 0, 1, 6, 0, 0, 0]
    (by norm_num) (by norm_num) (by norm_num) (by norm_num) (by norm_num) (by norm_num)
    (by decide) (by decide) (Or.inl rfl) (by norm_num) (by norm_num) (by norm_num)
    (by decide) (by decide)
  rw [h]
  have hdv : digitsVal [0, 0, 0, 1, 6, 0, 0, 0] = 16000 := by decide
  rw [hdv]
  norm_num
  decide

/-- A CBOE call entry (strike 16, expiry 2025-10-31) with gamma 1, open
interest 1 and IV 1. -/
def cboeCall16 : CBOEOptionData :=
  { option := "CMG251031C00016000".toList, iv := 1, open_interest := 1, gamma := 1 }

/-- A CBOE snapshot payload around a given options list, at underlying
price 10. -/
def cboePayload (opts : List CBOEOptionData) : CBOEData :=
  { timestamp := "t".toList, data := { options := opts, current_price := 10 },
    symbol := "CMG".toList }

/-- C1 counterexample: in the snapshot (CBOE) schema, folding the same raw
record twice does *not* double the exposure: the per-side fields are
assigned, not accumulated, so the duplicate dataset carries the same
exposure `100` as the single-record dataset (`100 ≠ 2 · 100`). -/
theorem cboe_duplicate_record_does_not_double :
    ((processCBOEData (cboePayload [cboeCall16, cboeCall16])).dataPoints.map
        (fun p => (p.strike, p.gammaExposure)) = [((16 : ℚ), 100)]) ∧
      ((processCBOEData (cboePayload [cboeCall16])).dataPoints.map
        (fun p => (p.strike, p.gammaExposure)) = [((16 : ℚ), 100)]) ∧
      ¬ ((100 : ℚ) = 2 * 100) := by
  have h := parseCBOEOption_decodes cboeCall16
    "CMG".toList 2 5 1 0 3 1 'C' [0, 0, 0, 1, 6, 0, 0, 0]
    (by norm_num) (by norm_num) (by norm_num) (by norm_num) (by norm_num) (by norm_num)
    (by decide) (by decide) (by norm_num) (by norm_num) (by norm_num)
    (by decide) (by decide)
  have hparse : parseCBOEOption cboeCall16 =
      some { strike := 16, callPut := "C".toList, expirationDate := "2025-10-31".toList } := by
    rw [h]
    have hdv : digitsVal [0, 0, 0, 1, 6, 0, 0, 0] = 16000 := by decide
    rw [hdv]
    norm_num
    decide
  refine ⟨?_, ?_, by norm_num⟩ <;>
    · simp only [processCBOEData, cboePayload, cboeInsert, hparse, containsKey, assocUpdate,
        List.foldl, List.map, List.flatten]
      rw [show jsSlice cboeCall16.option (-9) (-8) = ['C'] from by decide]
      simp only [cboeApplySide, mkCBOEPoint, orZero,
        show (['C'] : List Char) = "C".toList from rfl, eq_self_iff_true, if_true, reduceIte]
      rw [show (jsParseInt (jsSlice1 cboeCall16.option (-8))).getD 0 = (16000 : ℤ) from by decide]
      norm_num [cboeCall16]

/-- Re-applying the per-side assignments of `processCBOEData` for the same
raw record is a no-op: the side fields are overwritten with the same
values and `gammaExposure` is recomputed from them. -/
theorem cboeApplySide_idem (u : ℚ) (o : CBOEOptionData) (cp : JSStr) (x : GexDataPoint ℚ) :
    cboeApplySide u o cp (cboeApplySide u o cp x) = cboeApplySide u o cp x := by
  by_cases h : cp = ['C'] <;> simp [cboeApplySide, h]

/-- C1 (amended): repeated identical raw records accumulate only in the
*legacy* schema, where processing `[o, o]` yields a single point carrying
exactly double the single-record exposure; in the snapshot (CBOE) schema a
repeated record overwrites the per-side fields, so processing `[o, o]`
yields a dataset identical to that of `[o]` (exposure equal to, not double,
the single-record exposure). -/
theorem duplicate_record_accumulation :
    (∀ (o : LegacyOption) (dd : OptionData), o.data = some dd →
      (processLegacyOptions [o, o]).map
          (fun d => d.dataPoints.map (fun p => (p.strike, p.gammaExposure))) =
        Except.ok [(o.contract.strike, 2 * calculateGammaExposureLegacy o)]) ∧
      (∀ (ts sym : JSStr) (P : ℚ) (o : CBOEOptionData),
        processCBOEData ⟨ts, ⟨[o, o], P⟩, sym⟩ =
          processCBOEData ⟨ts, ⟨[o], P⟩, sym⟩) := by
  constructor
  · intro o dd h
    simp only [processLegacyOptions, List.filter_cons, List.filter_nil, h, Option.isSome_some,
      if_true, reduceIte, List.foldl, legacyInsert, containsKey, assocUpdate, mkLegacyPoint,
      eq_self_iff_true, List.nil_append, List.cons_append, List.append_nil, List.map,
      List.flatten, Except.map, if_false, Bool.false_eq_true]
    rw [two_mul]
  · intro ts sym P o
    cases hp : parseCBOEOption o with
    | none => simp [processCBOEData, cboeInsert, hp]
    | some parsed =>
      simp only [processCBOEData, cboeInsert, hp, containsKey, assocUpdate, List.foldl,
        List.map, List.flatten, eq_self_iff_true, if_true, reduceIte, if_false,
        Bool.false_eq_true, List.nil_append, List.cons_append, List.append_nil]
      rw [cboeApplySide_idem]

/-- Witness for C1: processing the example call record twice yields one
point at strike 100 with double the single-record exposure
(`2 · 52.5 = 105`). -/
theorem duplicate_record_accumulation_witness :
    (processLegacyOptions [c2Call, c2Call]).map
        (fun d => d.dataPoints.map (fun p => (p.strike, p.gammaExposure))) =
      Except.ok [((100 : ℚ), 105)] := by
  have h := duplicate_record_accumulation.1 c2Call
    { gamma := 1/1000, undPrice := 105, openInterest := 10 } rfl
  rw [h]
  norm_num [c2Call, calculateGammaExposureLegacy, Char.reduceEq]
  decide

/-- A successful association-list lookup returns a stored value. -/
theorem assocGet_mem [DecidableEq α] (m : List (α × β)) (a : α) (b : β)
    (h : assocGet m a = some b) : ∃ k, (k, b) ∈ m := by
  induction m with
  | nil => simp [assocGet] at h
  | cons kv rest ih =>
    obtain ⟨k, v⟩ := kv
    rw [assocGet] at h
    by_cases hk : k = a
    · rw [if_pos hk] at h
      injection h with h'
      exact ⟨k, by simp [h']⟩
    · rw [if_neg hk] at h
      obtain ⟨k', hk'⟩ := ih h
      exact ⟨k', by simp [hk']⟩

/-- The frame invariant of the heap-model filter: the original heap `h₀` is
untouched (cells below `h₀.length` read the same), the heap only grows, and
every reference registered in the strike map is a *fresh* cell (at or above
`h₀.length`), i.e. one of the `{ ...point }` copies. -/
def heapFrameInv (h₀ : Heap) (st : List (ℚ × ℕ) × Heap) : Prop :=
  h₀.length ≤ st.2.length ∧ (∀ i, i < h₀.length → st.2[i]? = h₀[i]?) ∧
    ∀ kv ∈ st.1, h₀.length ≤ kv.2

/-- One heap-model filter step preserves the frame invariant: a `+=`
mutation only ever targets a strike-map reference (hence a fresh copy), and
an allocation appends past the end. -/
theorem filterStepH_inv (h₀ : Heap) (st : List (ℚ × ℕ) × Heap) (r : ℕ)
    (hI : heapFrameInv h₀ st) : heapFrameInv h₀ (filterStepH st r) := by
  obtain ⟨sm, h⟩ := st
  obtain ⟨hlen, hpre, hmem⟩ := hI
  simp only [heapFrameInv] at *
  rw [filterStepH]
  cases hget : assocGet sm (heapRead h r).strike with
  | some er =>
    obtain ⟨k, hk⟩ := assocGet_mem sm _ er hget
    have her : h₀.length ≤ er := hmem (k, er) hk
    refine ⟨?_, ?_, hmem⟩
    · simpa [List.length_set] using hlen
    · intro i hi
      simp only
      rw [List.getElem?_set_ne (by omega)]
      exact hpre i hi
  | none =>
    refine ⟨?_, ?_, ?_⟩
    · simp only [List.length_append, List.length_cons, List.length_nil]
      omega
    · intro i hi
      simp only
      rw [List.getElem?_append_left (by omega)]
      exact hpre i hi
    · intro kv hkv
      simp only at hkv
      rcases List.mem_append.mp hkv with hkv | hkv
      · exact hmem kv hkv
      · simp only [List.mem_singleton] at hkv
        subst hkv
        exact hlen

/-- Folding heap-model filter steps over a reference list preserves the
frame invariant. -/
theorem foldl_filterStepH_inv (h₀ : Heap) (rs : List ℕ) :
    ∀ st, heapFrameInv h₀ st → heapFrameInv h₀ (rs.foldl filterStepH st) := by
  induction rs with
  | nil => intro st hI; exact hI
  | cons r rest ih =>
    intro st hI
    exact ih _ (filterStepH_inv h₀ st r hI)

/-- C9: `filterGexData` never mutates the dataset it reads.  In the
heap-model embedding, every cell of the original heap — in particular every
`NormalizedStrikePoint` referenced from `dataPointsByExpiration` or
`dataPoints`, with all its fields including `gammaExposure` — is unchanged
after the call: the result is built only from freshly allocated copies. -/
theorem filterGexDataH_frame (h : Heap) (data : DatasetRefs) (selectedDates : List JSStr)
    (strikeRangeMin strikeRangeMax : ℚ) (r : ℕ) (hr : r < h.length) :
    ((filterGexDataH h data selectedDates strikeRangeMin strikeRangeMax).2)[r]? = h[r]? := by
  rw [filterGexDataH]
  by_cases hsel : selectedDates = []
  · rw [if_pos hsel]
  · rw [if_neg hsel]
    have hI : heapFrameInv h
        (selectedDates.foldl (filterDateStepH data) (([], h) : List (ℚ × ℕ) × Heap)) := by
      clear hsel
      have hstart : heapFrameInv h (([], h) : List (ℚ × ℕ) × Heap) :=
        ⟨le_refl _, fun i _ => rfl, by simp⟩
      generalize (([], h) : List (ℚ × ℕ) × Heap) = st₀ at hstart ⊢
      induction selectedDates generalizing st₀ with
      | nil => exact hstart
      | cons d rest ih =>
        rw [List.foldl_cons]
        apply ih
        rw [filterDateStepH.eq_def]
        cases hd : assocGet data.dataPointsByExpiration d with
        | some points =>
          exact foldl_filterStepH_inv h points st₀ hstart
        | none =>
          exact hstart
    exact hI.2.1 r hr

/-- Witness for C9: a concrete one-point dataset read through the heap
model leaves the heap cell of the dataset's point unchanged. -/
theorem filterGexDataH_frame_witness :
    ((filterGexDataH [pt7] ⟨[0], [("d".toList, [0])]⟩ ["d".toList] 0 10).2)[0]? =
      some pt7 :=
  filterGexDataH_frame [pt7] ⟨[0], [("d".toList, [0])]⟩ ["d".toList] 0 10 0 (by norm_num)

/-- Membership in an updated association list: an entry either was already
present or is the image of a present entry under the update. -/
theorem mem_assocUpdate [DecidableEq α] (f : β → β) (m : List (α × β)) (a : α)
    (kv : α × β) (h : kv ∈ assocUpdate f m a) :
    kv ∈ m ∨ ∃ v', (kv.1, v') ∈ m ∧ kv.2 = f v' := by
  induction m with
  | nil => simp [assocUpdate] at h
  | cons kv' rest ih =>
    obtain ⟨k, v⟩ := kv'
    rw [assocUpdate] at h
    by_cases hk : k = a
    · rw [if_pos hk] at h
      rcases List.mem_cons.mp h with rfl | hmem
      · exact Or.inr ⟨v, by simp⟩
      · exact Or.inl (List.mem_cons_of_mem _ hmem)
    · rw [if_neg hk] at h
      rcases List.mem_cons.mp h with rfl | hmem
      · exact Or.inl (List.mem_cons_self _ _)
      · rcases ih hmem with hmem' | ⟨v', hv', heq⟩
        · exact Or.inl (List.mem_cons_of_mem _ hmem')
        · exact Or.inr ⟨v', List.mem_cons_of_mem _ hv', heq⟩

/-- Every point a legacy dataset carries has no call/put side fields: the
legacy strike-map entries are created by `mkLegacyPoint` (which leaves them
`undefined`) and only ever updated in `gammaExposure`. -/
theorem processLegacyOptions_no_side_fields (opts : List LegacyOption)
    (d : ProcessedGexData ℚ) (h : processLegacyOptions opts = .ok d) :
    ∀ pt ∈ d.dataPoints, pt.callOpenInt = none ∧ pt.callIV = none ∧
      pt.putOpenInt = none ∧ pt.putIV = none := by
  have hfold : ∀ (u : ℚ) (os : List LegacyOption) (m : List (JSStr × List (ℚ × GexDataPoint ℚ))),
      (∀ e sm, (e, sm) ∈ m → ∀ k pt, (k, pt) ∈ sm → pt.callOpenInt = none ∧ pt.callIV = none ∧
        pt.putOpenInt = none ∧ pt.putIV = none) →
      ∀ e sm, (e, sm) ∈ os.foldl (legacyInsert u) m → ∀ k pt, (k, pt) ∈ sm →
        pt.callOpenInt = none ∧ pt.callIV = none ∧ pt.putOpenInt = none ∧ pt.putIV = none := by
    intro u os
    induction os with
    | nil => intro m hm; exact hm
    | cons o rest ih =>
      intro m hm
      rw [List.foldl_cons]
      refine ih _ ?_
      intro e sm hsm k pt hpt
      rw [legacyInsert] at hsm
      rcases mem_assocUpdate _ _ _ _ hsm with hsm' | ⟨sm', hsm', rfl⟩
      · -- entry untouched by the update; it is in `m` or the appended empty map
        by_cases hck : containsKey m o.contract.lastTradeDate
        · rw [if_pos hck] at hsm'
          exact hm e sm hsm' k pt hpt
        · rw [if_neg hck] at hsm'
          rcases List.mem_append.mp hsm' with hsm'' | hsm''
          · exact hm e sm hsm'' k pt hpt
          · simp only [List.mem_singleton, Prod.mk.injEq] at hsm''
            rw [hsm''.2] at hpt
            simp at hpt
      · -- entry produced by the strike-map update
        have hsm'mem : ∀ k' pt', (k', pt') ∈ sm' → pt'.callOpenInt = none ∧ pt'.callIV = none ∧
            pt'.putOpenInt = none ∧ pt'.putIV = none := by
          intro k' pt' hpt'
          by_cases hck : containsKey m o.contract.lastTradeDate
          · rw [if_pos hck] at hsm'
            exact hm e sm' hsm' k' pt' hpt'
          · rw [if_neg hck] at hsm'
            rcases List.mem_append.mp hsm' with hsm'' | hsm''
            · exact hm e sm' hsm'' k' pt' hpt'
            · simp only [List.mem_singleton, Prod.mk.injEq] at hsm''
              rw [hsm''.2] at hpt'
              simp at hpt'
        by_cases hck2 : containsKey sm' o.contract.strike
        · rw [if_pos hck2] at hpt
          rcases mem_assocUpdate _ _ _ _ hpt with hpt' | ⟨pt', hpt', rfl⟩
          · exact hsm'mem k pt hpt'
          · have hfields := hsm'mem k pt' hpt'
            simpa using hfields
        · rw [if_neg hck2] at hpt
          rcases List.mem_append.mp hpt with hpt' | hpt'
          · exact hsm'mem k pt hpt'
          · simp only [List.mem_singleton, Prod.mk.injEq] at hpt'
            rw [hpt'.2]
            simp [mkLegacyPoint]
  rw [processLegacyOptions] at h
  intro pt hpt
  cases hval : opts.filter (fun o => o.data.isSome) with
  | nil => rw [hval] at h; exact absurd h (by simp)
  | cons first rest =>
    rw [hval] at h
    simp only [Except.ok.injEq] at h
    subst h
    obtain ⟨l, hl, hptl⟩ := List.mem_flatten.mp hpt
    obtain ⟨p, hp, rfl⟩ := List.mem_map.mp hl
    obtain ⟨⟨e, sm⟩, hsm, rfl⟩ := List.mem_map.mp hp
    obtain ⟨⟨k, pt'⟩, hpt', rfl⟩ := List.mem_map.mp hptl
    exact hfold _ (first :: rest) [] (by simp) e sm hsm k pt' hpt'

/-- A point with no call and no put open-interest field contributes nothing
at any spot level: both eligibility guards of the profile loop fail. -/
theorem profilePointStep_no_sides (today : JSDateTime) (nextExpiry nextMonthlyExp : Option JSStr)
    (spotLevel : ℝ) (acc : GammaSums) (point : GexDataPoint ℝ)
    (h1 : point.callOpenInt = none) (h2 : point.putOpenInt = none) :
    profilePointStep today nextExpiry nextMonthlyExp spotLevel acc point = acc := by
  rw [profilePointStep]
  simp only [h1, h2]
  rw [if_neg (by simp [jsTruthy]), if_neg (by simp [jsTruthy])]

/-- C10: for every dataset built from the legacy schema, the gamma profile
is identically zero — legacy points carry none of the call/put
open-interest and IV fields the per-side eligibility guards require, so no
point ever contributes a sample, at any invocation date, strike window or
sample count. -/
theorem legacy_profile_all_zero (opts : List LegacyOption) (d : ProcessedGexData ℚ)
    (h : processLegacyOptions opts = .ok d) (today : JSDateTime) (strikeRange : StrikeRange)
    (numLevels : ℕ) :
    (calculateGammaProfile today (d.dataPoints.map castPoint) strikeRange numLevels).map
        (fun pt => (pt.totalGamma, pt.exNextGamma, pt.exMonthlyGamma)) =
      List.replicate numLevels ((0 : ℝ), (0 : ℝ), (0 : ℝ)) := by
  have hsides := processLegacyOptions_no_side_fields opts d h
  have hfold : ∀ (nE nM : Option JSStr) (spot : ℝ),
      (d.dataPoints.map castPoint).foldl (profilePointStep today nE nM spot) {} =
        ({} : GammaSums) := by
    intro nE nM spot
    have : ∀ (pts : List (GexDataPoint ℚ)),
        (∀ pt ∈ pts, pt.callOpenInt = none ∧ pt.putOpenInt = none) →
        ∀ (acc : GammaSums), (pts.map castPoint).foldl (profilePointStep today nE nM spot) acc = acc := by
      intro pts
      induction pts with
      | nil => intro _ acc; rfl
      | cons p rest ih =>
        intro hmem acc
        rw [List.map_cons, List.foldl_cons]
        rw [profilePointStep_no_sides today nE nM spot acc (castPoint p)
          (by simp [castPoint, (hmem p (by simp)).1])
          (by simp [castPoint, (hmem p (by simp)).2])]
        exact ih (fun pt hpt => hmem pt (by simp [hpt])) acc
    exact this d.dataPoints (fun pt hpt => ⟨(hsides pt hpt).1, (hsides pt hpt).2.2.1⟩) {}
  rw [calculateGammaProfile]
  simp only [hfold]
  rw [List.map_map]
  refine List.eq_replicate_iff.mpr ⟨by simp [Function.comp_def], ?_⟩
  intro b hb
  obtain ⟨spot, hspot, rfl⟩ := List.mem_map.mp hb
  show ((0 : ℝ) + 0, (0 : ℝ) + 0, (0 : ℝ) + 0) = ((0 : ℝ), (0 : ℝ), (0 : ℝ))
  norm_num

/-- Witness for C10: the dataset built from the two example legacy records
yields the all-zero profile (two levels over the window `[90, 110]`),
regardless of the example invocation date. -/
theorem legacy_profile_all_zero_witness :
    (calculateGammaProfile ⟨0, 0⟩ (c2Expected.dataPoints.map castPoint) ⟨90, 110⟩ 2).map
        (fun pt => (pt.totalGamma, pt.exNextGamma, pt.exMonthlyGamma)) =
      List.replicate 2 ((0 : ℝ), (0 : ℝ), (0 : ℝ)) :=
  legacy_profile_all_zero [c2Call, c2Put] c2Expected (by
    simp only [processLegacyOptions, legacyInsert, mkLegacyPoint, calculateGammaExposureLegacy,
      containsKey, assocUpdate, c2Call, c2Put, c2Expected, c2Point, List.filter, List.foldl,
      List.insertionSort, List.orderedInsert, Option.isSome, Char.reduceEq, reduceIte]
    norm_num) ⟨0, 0⟩ ⟨90, 110⟩ 2

/-- Closed form of the at-the-money call gamma exposure (spot = strike =
100, vol = 1, `r = q = 0`, OI = 1): `100·e^{−T/8} / (√(2π)·√T)`. -/
theorem calcGammaEx_atm (T : ℝ) (hT : 0 < T) :
    calcGammaEx 100 100 1 T 0 0 .call 1 =
      100 * Real.exp (-(T / 8)) / (Real.sqrt (2 * Real.pi) * Real.sqrt T) := by
  rw [calcGammaEx, if_neg (by push_neg; exact ⟨ne_of_gt hT, one_ne_zero⟩)]
  have hs : Real.sqrt T ≠ 0 := ne_of_gt (Real.sqrt_pos.mpr hT)
  have hss : Real.sqrt T * Real.sqrt T = T := Real.mul_self_sqrt (le_of_lt hT)
  simp only [normPdf]
  rw [show ((100 : ℝ) / 100) = 1 by norm_num, Real.log_one]
  have hdp : (0 + (0 - 0 + 0.5 * (1 : ℝ) ^ 2) * T) / (1 * Real.sqrt T) = 0.5 * T / Real.sqrt T := by
    ring_nf
  rw [hdp]
  have h1 : (0.5 * T / Real.sqrt T) * (0.5 * T / Real.sqrt T) = T / 4 := by
    rw [div_mul_div_comm, hss]
    rw [div_eq_div_iff (ne_of_gt hT) (by norm_num : (4 : ℝ) ≠ 0)]
    ring
  have hdpsq : -0.5 * (0.5 * T / Real.sqrt T) * (0.5 * T / Real.sqrt T) = -(T / 8) := by
    rw [show (-0.5 : ℝ) * (0.5 * T / Real.sqrt T) * (0.5 * T / Real.sqrt T) =
      -0.5 * ((0.5 * T / Real.sqrt T) * (0.5 * T / Real.sqrt T)) by ring, h1]
    ring
  rw [hdpsq]
  rw [show (-(0 : ℝ) * T) = 0 by ring, Real.exp_zero]
  have hpi : Real.sqrt (2 * Real.pi) ≠ 0 :=
    ne_of_gt (Real.sqrt_pos.mpr (by positivity))
  field_simp
  ring

/-- The at-the-money exposure strictly decreases in the time-to-expiry:
re-pricing the same point on an earlier calendar day gives a strictly
larger gamma exposure. -/
theorem calcGammaEx_atm_strict_anti (u v : ℝ) (hu : 0 < u) (huv : u < v) :
    calcGammaEx 100 100 1 v 0 0 .call 1 < calcGammaEx 100 100 1 u 0 0 .call 1 := by
  have hv : 0 < v := lt_trans hu huv
  rw [calcGammaEx_atm u hu, calcGammaEx_atm v hv]
  have hpi : (0 : ℝ) < Real.sqrt (2 * Real.pi) := Real.sqrt_pos.mpr (by positivity)
  have hsu : (0 : ℝ) < Real.sqrt u := Real.sqrt_pos.mpr hu
  have hsv : (0 : ℝ) < Real.sqrt v := Real.sqrt_pos.mpr hv
  have hnum : 100 * Real.exp (-(v / 8)) < 100 * Real.exp (-(u / 8)) := by
    have := Real.exp_lt_exp.mpr (show -(v / 8) < -(u / 8) by linarith)
    linarith
  have hden : Real.sqrt (2 * Real.pi) * Real.sqrt u ≤ Real.sqrt (2 * Real.pi) * Real.sqrt v := by
    have := Real.sqrt_le_sqrt (le_of_lt huv)
    nlinarith
  exact div_lt_div₀ hnum hden (by positivity) (by positivity)

/-- A snapshot-style point (strike 100, call open interest 1, call IV 1)
expiring Monday 2026-01-05, used to exhibit the wall-clock dependence of
the Profile Builder. -/
def p8 : GexDataPoint ℝ :=
  { strike := 100, gammaExposure := 0, underlying := 100,
    callOpenInt := some 1, callIV := some 1,
    expirationDate := some "2026-01-05".toList }

/-- Evaluation of the two-level profile of `p8` over the degenerate window
`[100, 100]`: both levels sit at spot 100 and the total gamma is the
at-the-money exposure priced at `max 1 c` business days, where `c` is the
business-day count from the invocation instant to the expiry. -/
theorem profile_p8_eval (t : JSDateTime) (c : ℕ)
    (hc : countBusinessDays (some t) (some ⟨toOrdinal 2026 1 5, 0⟩) = c) :
    (calculateGammaProfile t [p8] ⟨100, 100⟩ 2).map (fun pt => pt.totalGamma) =
      [calcGammaEx 100 100 1 ((max 1 c : ℕ) / 252) 0 0 .call 1,
        calcGammaEx 100 100 1 ((max 1 c : ℕ) / 252) 0 0 .call 1] := by
  rw [calculateGammaProfile]
  have hparse : parseISODate ['2', '0', '2', '6', '-', '0', '1', '-', '0', '5'] =
      some (2026, 1, 5) := by decide
  have hfri : isThirdFriday "2026-01-05".toList = false := by decide
  have ht : jsTruthy (some (1 : ℝ)) := by norm_num [jsTruthy]
  have hpos : optPos (some (1 : ℝ)) := by norm_num [optPos]
  have hf : ¬ jsTruthy (none : Option ℝ) := by simp [jsTruthy]
  simp [p8, profilePointStep, jsSetDedup, hparse, hfri, hc, ht, hpos, hf, List.range_succ]

/-- C8 counterexample: `calculateGammaProfile` reads the wall clock, so two
invocations on identical arguments made at different times return different
outputs.  Invoked on Friday 2026-01-02 the expiry is 2 business days away;
invoked on Thursday 2026-01-01 it is 3; the at-the-money exposure differs
strictly between the two times-to-expiry, so the profiles differ. -/
theorem calculateGammaProfile_depends_on_clock :
    calculateGammaProfile ⟨toOrdinal 2026 1 2, 0⟩ [p8] ⟨100, 100⟩ 2 ≠
      calculateGammaProfile ⟨toOrdinal 2026 1 1, 0⟩ [p8] ⟨100, 100⟩ 2 := by
  intro h
  have h1 := profile_p8_eval ⟨toOrdinal 2026 1 2, 0⟩ 2 (by decide)
  have h2 := profile_p8_eval ⟨toOrdinal 2026 1 1, 0⟩ 3 (by decide)
  have h' := congrArg (List.map (fun pt => pt.totalGamma)) h
  rw [h1, h2] at h'
  injection h' with hhead htail
  have hlt := calcGammaEx_atm_strict_anti (((max 1 2 : ℕ) : ℝ) / 252)
    (((max 1 3 : ℕ) : ℝ) / 252) (by norm_num) (by norm_num)
  rw [hhead] at hlt
  exact lt_irrefl _ hlt

/-- C8 (amended): both functions are deterministic in their inputs *and
the invocation instant*: `filterGexData` depends only on its arguments,
and two `calculateGammaProfile` calls agree whenever they are made at the
same current date-time (the clock is an implicit input; runs on different
days can differ, as the counterexample shows). -/
theorem profile_and_filter_deterministic :
    (∀ (t t' : JSDateTime) (pts : List (GexDataPoint ℝ)) (r : StrikeRange) (N : ℕ),
        t = t' → calculateGammaProfile t pts r N = calculateGammaProfile t' pts r N) ∧
      (∀ (d : ProcessedGexData ℚ) (sel : List JSStr) (mn mx : ℚ),
        filterGexData d sel mn mx = filterGexData d sel mn mx) :=
  ⟨fun _ _ _ _ _ h => by rw [h], fun _ _ _ _ => rfl⟩

/-- Witness for C8 (amended): two same-instant invocations agree on a
concrete input. -/
theorem profile_and_filter_deterministic_witness :
    calculateGammaProfile ⟨toOrdinal 2026 1 2, 0⟩ [p8] ⟨100, 100⟩ 2 =
      calculateGammaProfile ⟨toOrdinal 2026 1 2, 0⟩ [p8] ⟨100, 100⟩ 2 :=
  profile_and_filter_deterministic.1 ⟨toOrdinal 2026 1 2, 0⟩ ⟨toOrdinal 2026 1 2, 0⟩
    [p8] ⟨100, 100⟩ 2 rfl
